import Mathlib

/-!
Shallow embedding of the name-resolution core of a VHDL front-end
(`vhdl_lang/src/analysis/region.rs` and `semantic.rs`), together with
theorems settling the specification claims about it.

Hash maps (`FnvHashMap`) are embedded as association lists with
replace-in-place insertion; entities are records carrying the attributes
the embedded functions inspect; diagnostic messages are embedded as a
structured datatype carrying the same payloads as the formatted strings.
-/

namespace VhdlRegion

/-- Source position, abstracted to an offset (`SrcPos`). -/
structure SrcPos where
  offset : Nat
deriving DecidableEq, Repr

/-- `Designator`: identifier, operator symbol or character literal.
Identifiers are assumed pre-normalized so equality is structural. -/
inductive Designator where
  | identifier (name : String)
  | operatorSymbol (op : String)
  | character (c : Char)
deriving DecidableEq, Repr

/-- Structured diagnostic messages: each constructor stands for one of the
formatted message strings produced by the analysis code, carrying the same
payloads (the rendering of designators to strings is outside the core). -/
inductive Msg where
  | duplicateDeclarationWithSignature (d : Designator) (sigKey : Nat)
  | duplicateDeclaration (d : Designator)
  | deferredConstantsOnlyInPackageDeclarations
  | fullDeclarationOfDeferredConstantOnlyInPackageBody
  | deferredConstantLacksFullDeclaration (d : Designator)
  | missingBodyForProtectedType (d : Designator)
  | noDeclaration (d : Designator)
  | noDeclarationOfOperator (d : Designator)
  | ambiguousName (d : Designator)
  | previouslyDefinedHere
deriving DecidableEq, Repr

/-- A diagnostic: severity is always error for the embedded paths. -/
structure Diagnostic where
  pos : SrcPos
  message : Msg
  related : List (SrcPos × Msg)
deriving DecidableEq, Repr

/-- `Diagnostic::error(pos, message)`. -/
def Diagnostic.error (pos : SrcPos) (message : Msg) : Diagnostic :=
  { pos := pos, message := message, related := [] }

/-- `Diagnostic::add_related`. -/
def Diagnostic.addRelated (d : Diagnostic) (pos : SrcPos) (message : Msg) : Diagnostic :=
  { d with related := d.related ++ [(pos, message)] }

/-- Kind of an overloaded entity (`Overloaded` variants). -/
inductive OverloadedKind where
  | subprogram
  | subprogramDecl
  | enumLiteral
  | aliasDecl
deriving DecidableEq, Repr

/-- Payload of an overloaded entity: its kind, whether it is an implicit
declaration, its signature key (two signatures are equal iff their keys
are), and the id of its underlying actual entity (`as_actual().id()`,
which for an implicit alias is the aliased source entity). -/
structure OverloadedPayload where
  okind : OverloadedKind
  implicit : Bool
  sigKey : Nat
  actualId : Nat
deriving DecidableEq, Repr

/-- Entity kinds, restricted to the distinctions the embedded code
inspects (`AnyEntKind`): deferred constants, non-deferred constant
objects, protected types with an optional body position, overloadable
entities, and everything else. -/
inductive AnyEntKind where
  | deferredConstant
  | constantObj
  | protectedType (bodyPos : Option SrcPos)
  | overloaded (payload : OverloadedPayload)
  | other
deriving DecidableEq, Repr

/-- `AnyEnt`: id, designator, optional declaration position, kind. -/
structure AnyEnt where
  id : Nat
  designator : Designator
  declPos : Option SrcPos
  kind : AnyEntKind
deriving DecidableEq, Repr

/-- `AnyEntKind::is_deferred_constant`. -/
def AnyEntKind.isDeferredConstant : AnyEntKind → Bool
  | .deferredConstant => true
  | _ => false

/-- `AnyEntKind::is_non_deferred_constant` (a constant object). -/
def AnyEntKind.isNonDeferredConstant : AnyEntKind → Bool
  | .constantObj => true
  | _ => false

/-- `AnyEnt::error(diagnostics, message)`: pushes an error at the
entity's declaration position when it has one, otherwise nothing. -/
def AnyEnt.error (e : AnyEnt) (message : Msg) : List Diagnostic :=
  match e.declPos with
  | some p => [Diagnostic.error p message]
  | none => []

/-- Whether the entity kind is overloadable. -/
def AnyEnt.isOverloadable (e : AnyEnt) : Bool :=
  match e.kind with
  | .overloaded _ => true
  | _ => false

/-- `OverloadedEnt`: an entity whose kind is overloaded, with the payload
exposed. -/
structure OverloadedEnt where
  id : Nat
  designator : Designator
  declPos : Option SrcPos
  payload : OverloadedPayload
deriving DecidableEq, Repr

/-- The signature key of an overloaded entity (`signature().key()`). -/
def OverloadedEnt.sigKey (e : OverloadedEnt) : Nat := e.payload.sigKey

/-- `is_implicit`. -/
def OverloadedEnt.isImplicit (e : OverloadedEnt) : Bool := e.payload.implicit

/-- `is_explicit`. -/
def OverloadedEnt.isExplicit (e : OverloadedEnt) : Bool := !e.payload.implicit

/-- `is_subprogram` (a subprogram body). -/
def OverloadedEnt.isSubprogram (e : OverloadedEnt) : Bool :=
  match e.payload.okind with
  | .subprogram => true
  | _ => false

/-- `is_subprogram_decl`. -/
def OverloadedEnt.isSubprogramDecl (e : OverloadedEnt) : Bool :=
  match e.payload.okind with
  | .subprogramDecl => true
  | _ => false

/-- `as_actual().id()`. -/
def OverloadedEnt.actualId (e : OverloadedEnt) : Nat := e.payload.actualId

/-- `OverloadedEnt::inner`: the underlying `AnyEnt`. -/
def OverloadedEnt.inner (e : OverloadedEnt) : AnyEnt :=
  { id := e.id, designator := e.designator, declPos := e.declPos,
    kind := .overloaded e.payload }

/-- `OverloadedEnt::from_any`: `ok` when the kind is overloaded. -/
def OverloadedEnt.fromAny (e : AnyEnt) : Except AnyEnt OverloadedEnt :=
  match e.kind with
  | .overloaded p =>
    .ok { id := e.id, designator := e.designator, declPos := e.declPos, payload := p }
  | _ => .error e

/-- Association-list lookup, embedding `HashMap::get`. -/
def alookup {κ ν : Type} [DecidableEq κ] : List (κ × ν) → κ → Option ν
  | [], _ => none
  | (k1, v1) :: rest, k => if k1 = k then some v1 else alookup rest k

/-- Association-list insert, embedding `HashMap::insert`: replaces the
value in place when the key is present, appends otherwise. -/
def ainsert {κ ν : Type} [DecidableEq κ] : List (κ × ν) → κ → ν → List (κ × ν)
  | [], k, v => [(k, v)]
  | (k1, v1) :: rest, k, v =>
    if k1 = k then (k, v) :: rest else (k1, v1) :: ainsert rest k v

/-- Association-list removal, embedding `HashMap::remove` (keys are
unique, so at most one entry is removed). -/
def aerase {κ ν : Type} [DecidableEq κ] : List (κ × ν) → κ → List (κ × ν)
  | [], _ => []
  | (k1, v1) :: rest, k =>
    if k1 = k then rest else (k1, v1) :: aerase rest k

theorem alookup_ainsert_self {κ ν : Type} [DecidableEq κ] (l : List (κ × ν)) (k : κ) (v : ν) :
    alookup (ainsert l k v) k = some v := by
  induction l with
  | nil => simp [ainsert, alookup]
  | cons hd tl ih =>
    obtain ⟨k1, v1⟩ := hd
    by_cases h : k1 = k
    · simp [ainsert, h, alookup]
    · simp [ainsert, h, alookup, ih]

theorem alookup_ainsert_ne {κ ν : Type} [DecidableEq κ] (l : List (κ × ν)) (k k2 : κ) (v : ν)
    (h : k ≠ k2) : alookup (ainsert l k v) k2 = alookup l k2 := by
  induction l with
  | nil => simp [ainsert, alookup, h]
  | cons hd tl ih =>
    obtain ⟨k1, v1⟩ := hd
    by_cases h1 : k1 = k
    · subst h1
      simp [ainsert, alookup, h]
    · simp only [ainsert, if_neg h1]
      by_cases h2 : k1 = k2
      · simp [alookup, h2]
      · simp [alookup, h2, ih]

theorem alookup_append {κ ν : Type} [DecidableEq κ] (l1 l2 : List (κ × ν)) (k : κ) :
    alookup (l1 ++ l2) k =
      match alookup l1 k with
      | some v => some v
      | none => alookup l2 k := by
  induction l1 with
  | nil => simp [alookup]
  | cons hd tl ih =>
    obtain ⟨k1, v1⟩ := hd
    by_cases h : k1 = k
    · simp [alookup, h]
    · simp [alookup, h, ih]

/-- `OverloadedName`: a collection of overloaded entities keyed by
signature key (non-empty by construction in the source). -/
structure OverloadedName where
  entities : List (Nat × OverloadedEnt)
deriving DecidableEq, Repr

/-- The duplicate-declaration-with-signature diagnostic built in
`OverloadedName::insert`'s error branch. -/
def duplicateSignatureError (pos : SrcPos) (ent oldEnt : OverloadedEnt) : Diagnostic :=
  let d := Diagnostic.error pos
    (Msg.duplicateDeclarationWithSignature ent.designator ent.sigKey)
  match oldEnt.declPos with
  | some oldPos => d.addRelated oldPos Msg.previouslyDefinedHere
  | none => d

/-- `OverloadedName::insert`. `none` models the panic of
`ent.decl_pos().unwrap()` in the duplicate branch; `some (.ok _)` is a
silent insert/replace/ignore; `some (.error _)` returns the duplicate
diagnostic. -/
def OverloadedName.insert (self : OverloadedName) (ent : OverloadedEnt) :
    Option (Except Diagnostic OverloadedName) :=
  match alookup self.entities ent.sigKey with
  | some oldEnt =>
    if (oldEnt.isImplicit && ent.isExplicit)
        || (oldEnt.isSubprogramDecl && ent.isSubprogram) then
      some (.ok ⟨ainsert self.entities ent.sigKey ent⟩)
    else if oldEnt.isImplicit && ent.isImplicit && (oldEnt.actualId == ent.actualId) then
      some (.ok self)
    else if oldEnt.isExplicit && ent.isImplicit then
      some (.ok self)
    else
      match ent.declPos with
      | none => none
      | some pos => some (.error (duplicateSignatureError pos ent oldEnt))
  | none => some (.ok ⟨ainsert self.entities ent.sigKey ent⟩)

/-- `OverloadedName::with_visible`: merge visible overloaded names into
an immediate/enclosing set, ignoring visible entities whose signature
key conflicts with one already present. -/
def OverloadedName.withVisible (self visible : OverloadedName) : OverloadedName :=
  ⟨visible.entities.foldl
    (fun acc p => if (alookup acc p.1).isSome then acc else acc ++ [p])
    self.entities⟩

/-- The first entity of the set (`OverloadedName::first`; the source
unwraps, relying on non-emptiness). -/
def OverloadedName.firstEnt (o : OverloadedName) : Option OverloadedEnt :=
  o.entities.head?.map (fun p => p.2)

/-- `OverloadedName::as_unique`: the sole member when there is exactly
one. -/
def OverloadedName.asUnique (o : OverloadedName) : Option OverloadedEnt :=
  if o.entities.length = 1 then o.entities.head?.map (fun p => p.2) else none

/-- `NamedEntities`: a single entity or an overload set. -/
inductive NamedEntities where
  | single (ent : AnyEnt)
  | overloaded (name : OverloadedName)
deriving DecidableEq, Repr

/-- `NamedEntities::new`: overloadable entities become a singleton
overload set, others a `Single`. -/
def NamedEntities.new (ent : AnyEnt) : NamedEntities :=
  match OverloadedEnt.fromAny ent with
  | .ok oe => .overloaded ⟨[(oe.sigKey, oe)]⟩
  | .error e => .single e

/-- The first entity (`NamedEntities::first`). -/
def NamedEntities.firstEnt : NamedEntities → Option AnyEnt
  | .single e => some e
  | .overloaded o => o.firstEnt.map OverloadedEnt.inner

/-- `RegionKind`. -/
inductive RegionKind where
  | packageDeclaration
  | packageBody
  | other
deriving DecidableEq, Repr

/-- `Region`: visibility set, entity map, kind. The visibility set is a
multimap from the designator under which an entity was made potentially
visible to that entity. -/
structure Region where
  visibility : List (Designator × AnyEnt)
  entities : List (Designator × NamedEntities)
  kind : RegionKind
deriving DecidableEq, Repr

/-- `Region::lookup_immediate`. -/
def Region.lookupImmediate (r : Region) (d : Designator) : Option NamedEntities :=
  alookup r.entities d

/-- `duplicate_error(name, pos, prev_pos)`. -/
def duplicateError (name : Designator) (pos : SrcPos) (prevPos : Option SrcPos) : Diagnostic :=
  let d := Diagnostic.error pos (Msg.duplicateDeclaration name)
  match prevPos with
  | some pp => d.addRelated pp Msg.previouslyDefinedHere
  | none => d

/-- Diagnostics of `Region::check_deferred_constant_pairs` for one entity
map entry. -/
def deferredConstantEntryDiags (ne : NamedEntities) : List Diagnostic :=
  match ne.firstEnt with
  | some e =>
    match e.kind with
    | .deferredConstant =>
      e.error (Msg.deferredConstantLacksFullDeclaration e.designator)
    | _ => []
  | none => []

/-- `Region::check_deferred_constant_pairs`. -/
def Region.checkDeferredConstantPairs (r : Region) : List Diagnostic :=
  match r.kind with
  | .packageDeclaration | .packageBody =>
    (r.entities.map (fun p => deferredConstantEntryDiags p.2)).flatten
  | .other => []

/-- Diagnostics of `Region::check_protected_types_have_body` for one
entity map entry. -/
def protectedBodyEntryDiags (ne : NamedEntities) : List Diagnostic :=
  match ne.firstEnt with
  | some e =>
    match e.kind with
    | .protectedType none =>
      e.error (Msg.missingBodyForProtectedType e.designator)
    | _ => []
  | none => []

/-- `Region::check_protected_types_have_body`. -/
def Region.checkProtectedTypesHaveBody (r : Region) : List Diagnostic :=
  (r.entities.map (fun p => protectedBodyEntryDiags p.2)).flatten

/-- `Region::close`: returns the emitted diagnostics (the source takes
`&self`, so the region itself is unchanged). -/
def Region.close (r : Region) : List Diagnostic :=
  r.checkDeferredConstantPairs ++ r.checkProtectedTypesHaveBody

/-- `Region::add`: returns the updated region and the emitted
diagnostics; `none` models the panic propagated from
`OverloadedName::insert` (and the unreachable `first()` of an empty
overload set). -/
def Region.add (r : Region) (ent : AnyEnt) : Option (Region × List Diagnostic) :=
  if ent.kind.isDeferredConstant && !(r.kind = RegionKind.packageDeclaration) then
    some (r, ent.error Msg.deferredConstantsOnlyInPackageDeclarations)
  else
    match alookup r.entities ent.designator with
    | some (NamedEntities.single prevEnt) =>
      if prevEnt.id = ent.id then
        some ({ r with entities := ainsert r.entities ent.designator (.single ent) }, [])
      else if prevEnt.kind.isDeferredConstant && ent.kind.isNonDeferredConstant then
        if r.kind = RegionKind.packageBody then
          some ({ r with entities := ainsert r.entities ent.designator (.single ent) }, [])
        else
          some (r, ent.error Msg.fullDeclarationOfDeferredConstantOnlyInPackageBody)
      else
        match ent.declPos with
        | some pos => some (r, [duplicateError prevEnt.designator pos prevEnt.declPos])
        | none => some (r, [])
    | some (NamedEntities.overloaded overloaded) =>
      match OverloadedEnt.fromAny ent with
      | .ok oent =>
        match overloaded.insert oent with
        | none => none
        | some (.ok newOverloaded) =>
          some ({ r with entities := ainsert r.entities ent.designator (.overloaded newOverloaded) }, [])
        | some (.error err) => some (r, [err])
      | .error e =>
        match e.declPos with
        | some pos =>
          match overloaded.firstEnt with
          | some f => some (r, [duplicateError f.designator pos f.declPos])
          | none => none
        | none => some (r, [])
    | none =>
      some ({ r with entities := ainsert r.entities ent.designator (NamedEntities.new ent) }, [])

/-- Modelled from the spec: `Visibility::lookup_into` lives in
`visibility.rs`, which is not under `src/`. Per the spec it collects the
entries of the visibility set that were made potentially visible under
the looked-up designator. -/
def visibilityLookupInto (vis : List (Designator × AnyEnt)) (d : Designator) : List AnyEnt :=
  (vis.filter (fun p => p.1 = d)).map (fun p => p.2)

/-- Turns a list of overloadable candidates into an overload set,
first candidate winning on signature-key collision. -/
def overloadSetOfCandidates (es : List AnyEnt) : OverloadedName :=
  ⟨es.foldl
    (fun acc e =>
      match OverloadedEnt.fromAny e with
      | .ok oe => if (alookup acc oe.sigKey).isSome then acc else acc ++ [(oe.sigKey, oe)]
      | .error _ => acc)
    []⟩

/-- Modelled from the spec: `Visible::into_unambiguous` lives in
`visibility.rs`, which is not under `src/`. Per the spec: no candidate
gives nothing; exactly one candidate is returned as is; several
candidates that are all overloadable are returned as their union
overload set; otherwise an ambiguity diagnostic is reported. -/
def intoUnambiguous (pos : SrcPos) (d : Designator) (candidates : List AnyEnt) :
    Except Diagnostic (Option NamedEntities) :=
  match candidates with
  | [] => .ok none
  | [e] => .ok (some (NamedEntities.new e))
  | es =>
    if es.all AnyEnt.isOverloadable then
      .ok (some (.overloaded (overloadSetOfCandidates es)))
    else
      .error ((es.filterMap AnyEnt.declPos).foldl
        (fun diag p => diag.addRelated p Msg.previouslyDefinedHere)
        (Diagnostic.error pos (Msg.ambiguousName d)))

/-- `Scope::lookup_enclosing` over the chain of regions, innermost
first: a `Single` in a region stops the walk; an overload set recurses
into the parent and merges a parent overload set left-biased. -/
def lookupEnclosing : List Region → Designator → Option NamedEntities
  | [], _ => none
  | r :: rest, d =>
    match r.lookupImmediate d with
    | some (NamedEntities.single e) => some (.single e)
    | some (NamedEntities.overloaded immediate) =>
      match lookupEnclosing rest d with
      | some (NamedEntities.overloaded enclosing) =>
        some (.overloaded (immediate.withVisible enclosing))
      | _ => some (.overloaded immediate)
    | none => lookupEnclosing rest d

/-- `Scope::lookup_visiblity_into`: collect the potentially visible
candidates of this scope's region and all ancestors. -/
def chainVisibility (chain : List Region) (d : Designator) : List AnyEnt :=
  (chain.map (fun r => visibilityLookupInto r.visibility d)).flatten

/-- `Scope::lookup_visible`. -/
def lookupVisible (chain : List Region) (pos : SrcPos) (d : Designator) :
    Except Diagnostic (Option NamedEntities) :=
  intoUnambiguous pos d (chainVisibility chain d)

/-- The "No declaration of ..." diagnostic of `Scope::lookup_uncached`. -/
def noDeclarationError (pos : SrcPos) (d : Designator) : Diagnostic :=
  Diagnostic.error pos
    (match d with
     | .identifier n => Msg.noDeclaration (.identifier n)
     | .operatorSymbol op => Msg.noDeclarationOfOperator (.operatorSymbol op)
     | .character c => Msg.noDeclaration (.character c))

/-- `Scope::lookup_uncached`. -/
def lookupUncached (chain : List Region) (pos : SrcPos) (d : Designator) :
    Except Diagnostic NamedEntities :=
  let result : Except Diagnostic (Option NamedEntities) :=
    match lookupEnclosing chain d with
    | some (NamedEntities.single e) => .ok (some (.single e))
    | some (NamedEntities.overloaded enclosingOverloaded) =>
      match lookupVisible chain pos d with
      | .ok (some (NamedEntities.overloaded overloaded)) =>
        .ok (some (.overloaded (enclosingOverloaded.withVisible overloaded)))
      | _ => .ok (some (.overloaded enclosingOverloaded))
    | none => lookupVisible chain pos d
  match result with
  | .ok (some visible) => .ok visible
  | .ok none => .error (noDeclarationError pos d)
  | .error e => .error e

/-- `Scope`: its own region, the regions of the parent chain (innermost
first), and the lookup cache. -/
structure Scope where
  region : Region
  parents : List Region
  cache : List (Designator × NamedEntities)
deriving DecidableEq, Repr

/-- The region chain of a scope, innermost first. -/
def Scope.chain (s : Scope) : List Region := s.region :: s.parents

/-- `Scope::lookup`: return the cached result when present, otherwise
compute the uncached lookup and cache successful results. Returns the
lookup outcome and the scope with its updated cache. -/
def Scope.lookup (s : Scope) (pos : SrcPos) (d : Designator) :
    Except Diagnostic NamedEntities × Scope :=
  match alookup s.cache d with
  | some ents => (.ok ents, s)
  | none =>
    match lookupUncached s.chain pos d with
    | .ok ents => (.ok ents, { s with cache := ainsert s.cache d ents })
    | .error e => (.error e, s)

/-- `Scope::make_potentially_visible_with_name(pos?, designator, ent)`:
removes the cache entry for `ent.designator()` (not for `designator`)
and makes `ent` potentially visible under `designator` (the visibility
mutation itself is modelled from the spec, `visibility.rs` not being
under `src/`). -/
def Scope.makePotentiallyVisibleWithName (s : Scope) (_visiblePos : Option SrcPos)
    (designator : Designator) (ent : AnyEnt) : Scope :=
  { region := { s.region with visibility := s.region.visibility ++ [(designator, ent)] },
    parents := s.parents,
    cache := aerase s.cache ent.designator }

/-- `Scope::make_potentially_visible(pos?, ent)`: visibility under the
entity's own designator. -/
def Scope.makePotentiallyVisible (s : Scope) (visiblePos : Option SrcPos)
    (ent : AnyEnt) : Scope :=
  s.makePotentiallyVisibleWithName visiblePos ent.designator ent

/-- `TypeCheck`: three-valued typing outcome. -/
inductive TypeCheck where
  | ok
  | notOk
  | unknown
deriving DecidableEq, Repr

/-- `TypeCheck::combine` (`add` assigns the combination in place). -/
def TypeCheck.combine (self other : TypeCheck) : TypeCheck :=
  match other with
  | .ok => self
  | .notOk => .notOk
  | .unknown => if self = .notOk then .notOk else .unknown

/-- Abstract expressions of the AST: the aggregate-element analysis
never inspects their structure, only hands them to the recursive
analysis calls, which are passed in as oracles. -/
structure Expr where
  exprId : Nat
deriving DecidableEq, Repr

/-- Abstract discrete ranges, same role as `Expr`. -/
structure DRange where
  rangeId : Nat
deriving DecidableEq, Repr

/-- Abstract type entities (`TypeEnt`). -/
structure TypeEnt where
  typeId : Nat
deriving DecidableEq, Repr

/-- `Choice` in an element association. -/
inductive Choice where
  | expression (e : Expr)
  | discreteRange (r : DRange)
  | others
deriving DecidableEq, Repr

/-- `ElementAssociation`. -/
inductive ElementAssociation where
  | named (choices : List Choice) (expr : Expr)
  | positional (expr : Expr)
deriving DecidableEq, Repr

/-- The associated expression of an element association. -/
def ElementAssociation.expr : ElementAssociation → Expr
  | .named _ e => e
  | .positional e => e

/-- Oracles standing for the mutually-recursive analysis functions
called by `analyze_1d_array_assoc_elem`: each returns the typing outcome
and the diagnostics it would push into the handed-in diagnostic bag. -/
structure AnalysisOracles where
  analyzeExprWithTargetType : TypeEnt → Expr → TypeCheck × List Diagnostic
  analyzeDRangeWithTargetType : TypeEnt → DRange → TypeCheck × List Diagnostic
  analyzeDRange : DRange → List Diagnostic

/-- State threaded through the choice loop of
`analyze_1d_array_assoc_elem`: `can_be_array`, the accumulated
`TypeCheck` and the diagnostics pushed so far. -/
structure ChoiceLoopState where
  canBeArray : Bool
  check : TypeCheck
  diags : List Diagnostic
deriving DecidableEq, Repr

/-- One step of the choice loop of `analyze_1d_array_assoc_elem`. -/
def choiceStep (oracles : AnalysisOracles) (indexType : Option TypeEnt)
    (st : ChoiceLoopState) (choice : Choice) : ChoiceLoopState :=
  match choice with
  | .expression indexExpr =>
    match indexType with
    | some it =>
      { canBeArray := false,
        check := st.check.combine (oracles.analyzeExprWithTargetType it indexExpr).1,
        diags := st.diags ++ (oracles.analyzeExprWithTargetType it indexExpr).2 }
    | none => { st with canBeArray := false }
  | .discreteRange dr =>
    match indexType with
    | some it =>
      { st with
        check := st.check.combine (oracles.analyzeDRangeWithTargetType it dr).1,
        diags := st.diags ++ (oracles.analyzeDRangeWithTargetType it dr).2 }
    | none =>
      { st with
        check := st.check.combine .unknown,
        diags := st.diags ++ oracles.analyzeDRange dr }
  | .others =>
    { canBeArray := false, check := st.check.combine .unknown, diags := st.diags }

/-- The choice phase of `analyze_1d_array_assoc_elem`: positional
associations skip the loop; named associations run it over their
choices. -/
def choicePhase (oracles : AnalysisOracles) (indexType : Option TypeEnt)
    (assoc : ElementAssociation) : ChoiceLoopState :=
  match assoc with
  | .positional _ => { canBeArray := true, check := .ok, diags := [] }
  | .named choices _ =>
    choices.foldl (choiceStep oracles indexType)
      { canBeArray := true, check := .ok, diags := [] }

/-- `AnalyzeContext::analyze_1d_array_assoc_elem`: after the choice
phase, if the association can still be an array element range, try the
element type first and fall back to the whole array type when element
typing does not yield `Ok`; otherwise analyze against the element type
directly. -/
def analyze1dArrayAssocElem (oracles : AnalysisOracles) (arrayType : TypeEnt)
    (indexType : Option TypeEnt) (elemType : TypeEnt)
    (assoc : ElementAssociation) : TypeCheck × List Diagnostic :=
  let st := choicePhase oracles indexType assoc
  let expr := assoc.expr
  if st.canBeArray then
    if (oracles.analyzeExprWithTargetType elemType expr).1 = .ok then
      (st.check.combine (oracles.analyzeExprWithTargetType elemType expr).1,
        st.diags ++ (oracles.analyzeExprWithTargetType elemType expr).2)
    else
      if (oracles.analyzeExprWithTargetType arrayType expr).1 = .ok then
        (st.check.combine (oracles.analyzeExprWithTargetType arrayType expr).1,
          st.diags ++ (oracles.analyzeExprWithTargetType arrayType expr).2)
      else
        (st.check.combine (oracles.analyzeExprWithTargetType elemType expr).1,
          st.diags ++ (oracles.analyzeExprWithTargetType elemType expr).2)
  else
    (st.check.combine (oracles.analyzeExprWithTargetType elemType expr).1,
      st.diags ++ (oracles.analyzeExprWithTargetType elemType expr).2)

/-- An AST node holding a reference slot (`Reference =
Option<Arc<AnyEnt>>`). -/
structure DesignatorNode where
  reference : Option AnyEnt
deriving DecidableEq, Repr

/-- `SetReference::set_reference`: the slot value assigned for a lookup
result — the entity of a `Single`, the sole member of a one-element
overload set, `none` otherwise. -/
def setReferenceValue (visible : NamedEntities) : Option AnyEnt :=
  match visible with
  | .single e => some e
  | .overloaded o =>
    match o.asUnique with
    | some oe => some oe.inner
    | none => none

/-- The `Name::Designator` arm of `AnalyzeContext::resolve_name`: clear
the node's reference slot, perform the scope lookup (its outcome passed
in), set the slot from a successful result and return it, or push the
diagnostic and return `none` while analysis continues. Result: the
updated node, the returned resolution, and the pushed diagnostics. -/
def resolveNameDesignator (node : DesignatorNode)
    (lookupResult : Except Diagnostic NamedEntities) :
    DesignatorNode × Option NamedEntities × List Diagnostic :=
  let cleared : DesignatorNode := { node with reference := none }
  match lookupResult with
  | .ok visible => ({ cleared with reference := setReferenceValue visible }, some visible, [])
  | .error diagnostic => (cleared, none, [diagnostic])

theorem alookup_withVisible_fold (vs : List (Nat × OverloadedEnt))
    (base : List (Nat × OverloadedEnt)) (k : Nat) :
    alookup (vs.foldl (fun acc p => if (alookup acc p.1).isSome then acc else acc ++ [p]) base) k =
      match alookup base k with
      | some v => some v
      | none => alookup vs k := by
  induction vs generalizing base with
  | nil =>
    simp only [List.foldl_nil, alookup]
    cases alookup base k <;> rfl
  | cons hd tl ih =>
    obtain ⟨k1, v1⟩ := hd
    simp only [List.foldl_cons]
    by_cases h1 : (alookup base k1).isSome = true
    · rw [if_pos h1, ih]
      cases hbk : alookup base k with
      | some v => rfl
      | none =>
        by_cases hk : k1 = k
        · subst hk
          rw [hbk] at h1
          simp at h1
        · simp [alookup, hk]
    · rw [if_neg h1, ih, alookup_append]
      cases hbk : alookup base k with
      | some v => rfl
      | none =>
        by_cases hk : k1 = k
        · subst hk
          simp [alookup]
        · simp [alookup, hk]

/-- C4: `OverloadedName::with_visible` is left-biased: for a key in both
sets the immediate/enclosing entity is kept, for a key only in the
visible set the visible entity is added, and the merged key set is the
union of the two key sets. -/
theorem overloaded_with_visible_left_biased (self visible : OverloadedName) (k : Nat) :
    (alookup (self.withVisible visible).entities k =
      match alookup self.entities k with
      | some v => some v
      | none => alookup visible.entities k)
    ∧ ((alookup (self.withVisible visible).entities k).isSome ↔
        (alookup self.entities k).isSome ∨ (alookup visible.entities k).isSome) := by
  have hmain : alookup (self.withVisible visible).entities k =
      match alookup self.entities k with
      | some v => some v
      | none => alookup visible.entities k :=
    alookup_withVisible_fold visible.entities self.entities k
  refine ⟨hmain, ?_⟩
  rw [hmain]
  cases alookup self.entities k <;> cases alookup visible.entities k <;> simp

/-- C2: `OverloadedName::insert` on a signature-key collision replaces
implicit by explicit and subprogram declaration by subprogram body
silently (rules checked first), silently ignores an implicit colliding
with an implicit of the same underlying source entity or with an
explicit entry, and otherwise produces a duplicate-declaration
diagnostic with a previously-defined-here note at the earlier
declaration's position; with no collision the entity is inserted without
diagnostic. The rules apply in the listed order, mirroring both the
spec's bullet list and the source. -/
theorem overloaded_insert_rules (self : OverloadedName) (ent oldEnt : OverloadedEnt) :
    (alookup self.entities ent.sigKey = some oldEnt →
      ((oldEnt.isImplicit && ent.isExplicit) || (oldEnt.isSubprogramDecl && ent.isSubprogram)) = true →
      self.insert ent = some (.ok ⟨ainsert self.entities ent.sigKey ent⟩))
    ∧ (alookup self.entities ent.sigKey = some oldEnt →
      (oldEnt.isSubprogramDecl && ent.isSubprogram) = false →
      oldEnt.isImplicit = true → ent.isImplicit = true → oldEnt.actualId = ent.actualId →
      self.insert ent = some (.ok self))
    ∧ (alookup self.entities ent.sigKey = some oldEnt →
      (oldEnt.isSubprogramDecl && ent.isSubprogram) = false →
      oldEnt.isExplicit = true → ent.isImplicit = true →
      self.insert ent = some (.ok self))
    ∧ (∀ pos, alookup self.entities ent.sigKey = some oldEnt →
      ent.declPos = some pos →
      ((oldEnt.isImplicit && ent.isExplicit) || (oldEnt.isSubprogramDecl && ent.isSubprogram)) = false →
      (oldEnt.isImplicit && ent.isImplicit && (oldEnt.actualId == ent.actualId)) = false →
      (oldEnt.isExplicit && ent.isImplicit) = false →
      self.insert ent = some (.error (duplicateSignatureError pos ent oldEnt)))
    ∧ (∀ pos oldPos, oldEnt.declPos = some oldPos →
      (duplicateSignatureError pos ent oldEnt).message =
        Msg.duplicateDeclarationWithSignature ent.designator ent.sigKey
      ∧ (duplicateSignatureError pos ent oldEnt).related = [(oldPos, Msg.previouslyDefinedHere)])
    ∧ (alookup self.entities ent.sigKey = none →
      self.insert ent = some (.ok ⟨ainsert self.entities ent.sigKey ent⟩)) := by
  refine ⟨?_, ?_, ?_, ?_, ?_, ?_⟩
  · intro hcol hrep
    simp [OverloadedName.insert, hcol, hrep]
  · intro hcol hsp himp1 himp2 hact
    have hexp : ent.isExplicit = false := by
      simp [OverloadedEnt.isExplicit]
      simp [OverloadedEnt.isImplicit] at himp2
      exact himp2
    simp [OverloadedName.insert, hcol, hsp, himp1, himp2, hexp, hact]
  · intro hcol hsp hexp1 himp2
    have himp1 : oldEnt.isImplicit = false := by
      simp [OverloadedEnt.isImplicit]
      simp [OverloadedEnt.isExplicit] at hexp1
      exact hexp1
    simp [OverloadedName.insert, hcol, hsp, himp1, hexp1, himp2]
  · intro pos hcol hpos h1 h2 h3
    simp [OverloadedName.insert, hcol, h1, h2, h3, hpos]
  · intro pos oldPos holdPos
    simp [duplicateSignatureError, holdPos, Diagnostic.error, Diagnostic.addRelated]
  · intro hnone
    simp [OverloadedName.insert, hnone]

/-- An explicit subprogram declaration occupying signature key 5. -/
def oldC2 : OverloadedEnt :=
  { id := 1, designator := .identifier "p", declPos := some ⟨1⟩,
    payload := { okind := .subprogramDecl, implicit := false, sigKey := 5, actualId := 1 } }

/-- A second explicit subprogram declaration with the same signature key. -/
def newC2 : OverloadedEnt :=
  { id := 2, designator := .identifier "p", declPos := some ⟨9⟩,
    payload := { okind := .subprogramDecl, implicit := false, sigKey := 5, actualId := 2 } }

/-- An overload set holding `oldC2`. -/
def selfC2 : OverloadedName := ⟨[(5, oldC2)]⟩

/-- Witness for the insertion rules: two explicit subprogram
declarations with the same signature collide into a duplicate
diagnostic. -/
theorem overloaded_insert_rules_witness :
    selfC2.insert newC2 = some (.error (duplicateSignatureError ⟨9⟩ newC2 oldC2)) :=
  (overloaded_insert_rules selfC2 newC2 oldC2).2.2.2.1 ⟨9⟩ (by decide) (by decide)
    (by decide) (by decide) (by decide)

/-- C10: `OverloadedName::insert` is partial at the duplicate branch:
when the collision is neither replaceable nor ignorable and the inserted
entity has no declaration position, the source unwraps `None` (modelled
as the `none` outcome); when the inserted entity's declaration position
is set, the duplicate branch returns the diagnostic and no branch of
`insert` panics. -/
theorem overloaded_insert_partiality (self : OverloadedName) (ent oldEnt : OverloadedEnt) :
    (alookup self.entities ent.sigKey = some oldEnt →
      ((oldEnt.isImplicit && ent.isExplicit) || (oldEnt.isSubprogramDecl && ent.isSubprogram)) = false →
      (oldEnt.isImplicit && ent.isImplicit && (oldEnt.actualId == ent.actualId)) = false →
      (oldEnt.isExplicit && ent.isImplicit) = false →
      ent.declPos = none →
      self.insert ent = none)
    ∧ (ent.declPos.isSome = true → self.insert ent ≠ none) := by
  constructor
  · intro hcol h1 h2 h3 hpos
    simp [OverloadedName.insert, hcol, h1, h2, h3, hpos]
  · intro hpos
    obtain ⟨p, hp⟩ := Option.isSome_iff_exists.mp hpos
    unfold OverloadedName.insert
    cases hcol : alookup self.entities ent.sigKey with
    | none => simp
    | some oldEnt2 =>
      by_cases h1 : ((oldEnt2.isImplicit && ent.isExplicit)
          || (oldEnt2.isSubprogramDecl && ent.isSubprogram)) = true
      · simp [h1]
      · by_cases h2 : (oldEnt2.isImplicit && ent.isImplicit && (oldEnt2.actualId == ent.actualId)) = true
        · simp [h1, h2]
        · by_cases h3 : (oldEnt2.isExplicit && ent.isImplicit) = true
          · simp [h1, h2, h3]
          · simp [h1, h2, h3, hp]

/-- An implicit entity with no declaration position whose signature key
collides with `oldC2` in a way that is neither replaceable nor
ignorable (old is explicit, new is implicit only if ignorable — here the
new one is explicit with no position). -/
def noPosC10 : OverloadedEnt :=
  { id := 3, designator := .identifier "p", declPos := none,
    payload := { okind := .subprogramDecl, implicit := false, sigKey := 5, actualId := 3 } }

/-- Witness for the partiality: inserting a colliding explicit entity
without a declaration position panics; with one set it returns the
duplicate diagnostic. -/
theorem overloaded_insert_partiality_witness :
    selfC2.insert noPosC10 = none ∧ selfC2.insert newC2 ≠ none :=
  ⟨(overloaded_insert_partiality selfC2 noPosC10 oldC2).1 (by decide) (by decide)
      (by decide) (by decide) rfl,
    (overloaded_insert_partiality selfC2 newC2 oldC2).2 (by decide)⟩

/-- C9: `Region::add` is atomic on error: whenever it emits any
diagnostic, the region (in particular its entity map) is exactly as it
was before the call. -/
theorem region_add_atomic_on_error (r : Region) (ent : AnyEnt)
    (res : Region) (diags : List Diagnostic)
    (h : r.add ent = some (res, diags)) (hne : diags ≠ []) : res = r := by
  unfold Region.add at h
  repeat' split at h
  all_goals simp only [Option.some_inj, Prod.mk.injEq, reduceCtorEq] at h
  all_goals first
    | exact h.1.symm
    | exact absurd h.2.symm hne

/-- A non-overloadable entity occupying designator `s`. -/
def entPrevC9 : AnyEnt :=
  { id := 1, designator := .identifier "s", declPos := some ⟨1⟩, kind := .other }

/-- A second, distinct non-overloadable entity with designator `s`. -/
def entNewC9 : AnyEnt :=
  { id := 2, designator := .identifier "s", declPos := some ⟨2⟩, kind := .other }

/-- A region whose entity map holds `entPrevC9`. -/
def regionC9 : Region :=
  { visibility := [], entities := [(.identifier "s", .single entPrevC9)], kind := .other }

/-- Witness for add-atomicity: a duplicate declaration emits a
diagnostic and leaves the region unchanged. -/
theorem region_add_atomic_on_error_witness :
    regionC9.add entNewC9 =
      some (regionC9, [duplicateError (Designator.identifier "s") ⟨2⟩ (some ⟨1⟩)])
    ∧ regionC9 = regionC9 :=
  ⟨by decide,
    region_add_atomic_on_error regionC9 entNewC9 regionC9
      [duplicateError (Designator.identifier "s") ⟨2⟩ (some ⟨1⟩)] (by decide) (by decide)⟩

/-- The deferred constant occupying designator `k` in the C5
counterexample region. -/
def prevDeferredC5 : AnyEnt :=
  { id := 7, designator := .identifier "k", declPos := some ⟨1⟩, kind := .deferredConstant }

/-- A non-deferred constant with the same id as `prevDeferredC5`
(the two-phase-update shape: same entity id, updated definition). -/
def entSameIdC5 : AnyEnt :=
  { id := 7, designator := .identifier "k", declPos := some ⟨2⟩, kind := .constantObj }

/-- A region of kind `Other` whose entity map holds `prevDeferredC5`. -/
def regionC5 : Region :=
  { visibility := [], entities := [(.identifier "k", .single prevDeferredC5)],
    kind := .other }

/-- Counterexample to the claim as stated: in a region of kind `Other`
occupied by a `Single` deferred constant, adding a non-deferred constant
with the same id overwrites the deferred constant silently (the same-id
update branch runs first), although the region kind is not
package-body. -/
theorem region_add_deferred_overwrite_counterexample :
    regionC5.kind ≠ RegionKind.packageBody
    ∧ regionC5.lookupImmediate (.identifier "k") = some (.single prevDeferredC5)
    ∧ prevDeferredC5.kind.isDeferredConstant = true
    ∧ entSameIdC5.kind.isNonDeferredConstant = true
    ∧ regionC5.add entSameIdC5 =
        some ({ regionC5 with entities := [(.identifier "k", .single entSameIdC5)] }, []) := by
  refine ⟨by decide, by decide, by decide, by decide, by decide⟩

/-- C5 (amended): `Region::add` rejects a deferred constant with a
diagnostic whenever the region kind is not package-declaration, leaving
the region unchanged; and when the designator is occupied by a `Single`
deferred constant and the new entity is a non-deferred constant with a
different id, the new entity overwrites the deferred constant iff the
region kind is package-body — otherwise a diagnostic is emitted and the
previous entry kept. (Positions are assumed set, as the spec guarantees
for user declarations.) -/
theorem region_add_deferred_constant_rules (r : Region) (ent prevEnt : AnyEnt) (p : SrcPos) :
    (ent.kind.isDeferredConstant = true → r.kind ≠ RegionKind.packageDeclaration →
      ent.declPos = some p →
      r.add ent = some (r, [Diagnostic.error p Msg.deferredConstantsOnlyInPackageDeclarations]))
    ∧ (alookup r.entities ent.designator = some (.single prevEnt) →
      prevEnt.id ≠ ent.id →
      prevEnt.kind.isDeferredConstant = true → ent.kind.isNonDeferredConstant = true →
      ((r.kind = RegionKind.packageBody →
        r.add ent =
          some ({ r with entities := ainsert r.entities ent.designator (.single ent) }, []))
      ∧ (r.kind ≠ RegionKind.packageBody → ent.declPos = some p →
        r.add ent =
          some (r, [Diagnostic.error p Msg.fullDeclarationOfDeferredConstantOnlyInPackageBody])))) := by
  constructor
  · intro hdef hkind hpos
    simp [Region.add, hdef, hkind, AnyEnt.error, hpos]
  · intro hocc hid hprevdef hnondef
    have hnotdef : ent.kind.isDeferredConstant = false := by
      cases hk : ent.kind <;> simp_all [AnyEntKind.isDeferredConstant, AnyEntKind.isNonDeferredConstant]
    constructor
    · intro hpb
      simp [Region.add, hnotdef, hocc, hid, hprevdef, hnondef, hpb]
    · intro hpb hpos
      simp [Region.add, hnotdef, hocc, hid, hprevdef, hnondef, hpb,
        AnyEnt.error, hpos]

/-- Witness for the amended deferred-constant rules: the full constant
declaration outside a package body is rejected with the region kept. -/
theorem region_add_deferred_constant_rules_witness :
    regionC5.add
      { id := 8, designator := .identifier "k", declPos := some ⟨2⟩, kind := .constantObj } =
      some (regionC5,
        [Diagnostic.error ⟨2⟩ Msg.fullDeclarationOfDeferredConstantOnlyInPackageBody]) :=
  ((region_add_deferred_constant_rules regionC5
      { id := 8, designator := .identifier "k", declPos := some ⟨2⟩, kind := .constantObj }
      prevDeferredC5 ⟨2⟩).2 (by decide) (by decide) (by decide) (by decide)).2
    (by decide) (by decide)

/-- C6: `Region::close` emits the deferred-constant diagnostic for every
deferred constant still present exactly when the region kind is
package-declaration or package-body (never for other-kind regions),
emits the missing-protected-body diagnostic for every protected type
whose body position is unset, and emits nothing else (`close` takes the
region immutably, so it cannot modify it). -/
theorem region_close_rules (r : Region) :
    (∀ dk ne e p, r.kind ≠ RegionKind.other →
      (dk, ne) ∈ r.entities → ne.firstEnt = some e →
      e.kind = AnyEntKind.deferredConstant → e.declPos = some p →
      Diagnostic.error p (Msg.deferredConstantLacksFullDeclaration e.designator) ∈ r.close)
    ∧ (∀ dk ne e p, (dk, ne) ∈ r.entities → ne.firstEnt = some e →
      e.kind = AnyEntKind.protectedType none → e.declPos = some p →
      Diagnostic.error p (Msg.missingBodyForProtectedType e.designator) ∈ r.close)
    ∧ (∀ diag, diag ∈ r.close →
      (∃ dk ne e p, (dk, ne) ∈ r.entities ∧ ne.firstEnt = some e ∧
        e.kind = AnyEntKind.deferredConstant ∧ e.declPos = some p ∧
        r.kind ≠ RegionKind.other ∧
        diag = Diagnostic.error p (Msg.deferredConstantLacksFullDeclaration e.designator))
      ∨ (∃ dk ne e p, (dk, ne) ∈ r.entities ∧ ne.firstEnt = some e ∧
        e.kind = AnyEntKind.protectedType none ∧ e.declPos = some p ∧
        diag = Diagnostic.error p (Msg.missingBodyForProtectedType e.designator))) := by
  refine ⟨?_, ?_, ?_⟩
  · intro dk ne e p hkind hmem hfirst hek hpos
    have hdiag : Diagnostic.error p (Msg.deferredConstantLacksFullDeclaration e.designator)
        ∈ deferredConstantEntryDiags ne := by
      simp [deferredConstantEntryDiags, hfirst, hek, AnyEnt.error, hpos]
    have hdc : Diagnostic.error p (Msg.deferredConstantLacksFullDeclaration e.designator)
        ∈ r.checkDeferredConstantPairs := by
      unfold Region.checkDeferredConstantPairs
      cases hk : r.kind with
      | other => exact absurd hk hkind
      | packageDeclaration =>
        simp only [List.mem_flatten, List.mem_map]
        exact ⟨deferredConstantEntryDiags ne, ⟨(dk, ne), hmem, rfl⟩, hdiag⟩
      | packageBody =>
        simp only [List.mem_flatten, List.mem_map]
        exact ⟨deferredConstantEntryDiags ne, ⟨(dk, ne), hmem, rfl⟩, hdiag⟩
    exact List.mem_append_left _ hdc
  · intro dk ne e p hmem hfirst hek hpos
    have hdiag : Diagnostic.error p (Msg.missingBodyForProtectedType e.designator)
        ∈ protectedBodyEntryDiags ne := by
      simp [protectedBodyEntryDiags, hfirst, hek, AnyEnt.error, hpos]
    have hpt : Diagnostic.error p (Msg.missingBodyForProtectedType e.designator)
        ∈ r.checkProtectedTypesHaveBody := by
      unfold Region.checkProtectedTypesHaveBody
      simp only [List.mem_flatten, List.mem_map]
      exact ⟨protectedBodyEntryDiags ne, ⟨(dk, ne), hmem, rfl⟩, hdiag⟩
    exact List.mem_append_right _ hpt
  · intro diag hmem
    rcases List.mem_append.mp hmem with hdc | hpt
    · left
      unfold Region.checkDeferredConstantPairs at hdc
      have hkind : r.kind ≠ RegionKind.other := by
        intro hk
        rw [hk] at hdc
        exact absurd hdc (List.not_mem_nil diag)
      have hdc2 : diag ∈ (r.entities.map (fun p => deferredConstantEntryDiags p.2)).flatten := by
        cases hk : r.kind with
        | other => exact absurd hk hkind
        | packageDeclaration => rw [hk] at hdc; exact hdc
        | packageBody => rw [hk] at hdc; exact hdc
      simp only [List.mem_flatten, List.mem_map] at hdc2
      obtain ⟨l, ⟨⟨dk, ne⟩, hentry, hl⟩, hdl⟩ := hdc2
      subst hl
      unfold deferredConstantEntryDiags at hdl
      cases hfirst : ne.firstEnt with
      | none => simp only [hfirst] at hdl; exact absurd hdl (List.not_mem_nil diag)
      | some e =>
        simp only [hfirst] at hdl
        cases hek : e.kind with
        | deferredConstant =>
          simp only [hek] at hdl
          unfold AnyEnt.error at hdl
          cases hpos : e.declPos with
          | none => simp only [hpos] at hdl; exact absurd hdl (List.not_mem_nil diag)
          | some p =>
            simp only [hpos] at hdl
            simp only [List.mem_singleton] at hdl
            exact ⟨dk, ne, e, p, hentry, hfirst, hek, hpos, hkind, hdl⟩
        | constantObj => simp only [hek] at hdl; exact absurd hdl (List.not_mem_nil diag)
        | protectedType bp => simp only [hek] at hdl; exact absurd hdl (List.not_mem_nil diag)
        | overloaded pl => simp only [hek] at hdl; exact absurd hdl (List.not_mem_nil diag)
        | other => simp only [hek] at hdl; exact absurd hdl (List.not_mem_nil diag)
    · right
      unfold Region.checkProtectedTypesHaveBody at hpt
      simp only [List.mem_flatten, List.mem_map] at hpt
      obtain ⟨l, ⟨⟨dk, ne⟩, hentry, hl⟩, hdl⟩ := hpt
      subst hl
      unfold protectedBodyEntryDiags at hdl
      cases hfirst : ne.firstEnt with
      | none => simp only [hfirst] at hdl; exact absurd hdl (List.not_mem_nil diag)
      | some e =>
        simp only [hfirst] at hdl
        cases hek : e.kind with
        | protectedType bp =>
          cases bp with
          | none =>
            simp only [hek] at hdl
            unfold AnyEnt.error at hdl
            cases hpos : e.declPos with
            | none => simp only [hpos] at hdl; exact absurd hdl (List.not_mem_nil diag)
            | some p =>
              simp only [hpos] at hdl
              simp only [List.mem_singleton] at hdl
              exact ⟨dk, ne, e, p, hentry, hfirst, hek, hpos, hdl⟩
          | some bpos => simp only [hek] at hdl; exact absurd hdl (List.not_mem_nil diag)
        | deferredConstant => simp only [hek] at hdl; exact absurd hdl (List.not_mem_nil diag)
        | constantObj => simp only [hek] at hdl; exact absurd hdl (List.not_mem_nil diag)
        | overloaded pl => simp only [hek] at hdl; exact absurd hdl (List.not_mem_nil diag)
        | other => simp only [hek] at hdl; exact absurd hdl (List.not_mem_nil diag)

/-- A deferred constant still present at close. -/
def defEntC6 : AnyEnt :=
  { id := 1, designator := .identifier "k", declPos := some ⟨1⟩, kind := .deferredConstant }

/-- A protected type whose body position is unset. -/
def protEntC6 : AnyEnt :=
  { id := 2, designator := .identifier "t", declPos := some ⟨3⟩, kind := .protectedType none }

/-- A package-body region holding both. -/
def regionC6 : Region :=
  { visibility := [],
    entities := [(.identifier "k", .single defEntC6), (.identifier "t", .single protEntC6)],
    kind := .packageBody }

/-- Witness for the close rules: closing `regionC6` reports both the
unfulfilled deferred constant and the missing protected body. -/
theorem region_close_rules_witness :
    Diagnostic.error ⟨1⟩ (Msg.deferredConstantLacksFullDeclaration (.identifier "k"))
      ∈ regionC6.close
    ∧ Diagnostic.error ⟨3⟩ (Msg.missingBodyForProtectedType (.identifier "t"))
      ∈ regionC6.close :=
  ⟨(region_close_rules regionC6).1 (.identifier "k") (.single defEntC6) defEntC6 ⟨1⟩
      (by decide) (by decide) (by decide) (by decide) (by decide),
    (region_close_rules regionC6).2.1 (.identifier "t") (.single protEntC6) protEntC6 ⟨3⟩
      (by decide) (by decide) (by decide) (by decide)⟩

/-- C8: resolving a plain designator clears the node's reference slot
first (the outcome is independent of the slot's prior value), sets the
slot exactly when the lookup result is unambiguous — a `Single` entity
or a one-member overload set — leaves it `none` for a multi-member
overload set, and on lookup failure leaves it `none`, pushes the
diagnostic and returns no resolution. -/
theorem resolve_designator_reference_rules (node node2 : DesignatorNode)
    (lr : Except Diagnostic NamedEntities) :
    resolveNameDesignator node lr = resolveNameDesignator node2 lr
    ∧ (∀ e, lr = .ok (.single e) →
        resolveNameDesignator node lr = (⟨some e⟩, some (.single e), []))
    ∧ (∀ o k oe, lr = .ok (.overloaded o) → o.entities = [(k, oe)] →
        resolveNameDesignator node lr = (⟨some oe.inner⟩, some (.overloaded o), []))
    ∧ (∀ o, lr = .ok (.overloaded o) → o.entities.length ≠ 1 →
        (resolveNameDesignator node lr).1.reference = none)
    ∧ (∀ diag, lr = .error diag →
        resolveNameDesignator node lr = (⟨none⟩, none, [diag])) := by
  refine ⟨?_, ?_, ?_, ?_, ?_⟩
  · cases lr with
    | ok v => rfl
    | error d => rfl
  · intro e h
    subst h
    rfl
  · intro o k oe h hone
    subst h
    simp [resolveNameDesignator, setReferenceValue, OverloadedName.asUnique, hone]
  · intro o h hlen
    subst h
    simp [resolveNameDesignator, setReferenceValue, OverloadedName.asUnique, hlen]
  · intro diag h
    subst h
    rfl

/-- A two-member overload set for the C8 witness. -/
def twoMemberC8 : OverloadedName :=
  ⟨[(1, { id := 1, designator := .identifier "f", declPos := some ⟨1⟩,
          payload := { okind := .subprogram, implicit := false, sigKey := 1, actualId := 1 } }),
    (2, { id := 2, designator := .identifier "f", declPos := some ⟨2⟩,
          payload := { okind := .subprogram, implicit := false, sigKey := 2, actualId := 2 } })]⟩

/-- Witness for the reference rules: a multi-member overload set leaves
the slot `none`, a `Single` result sets it. -/
theorem resolve_designator_reference_rules_witness :
    (resolveNameDesignator ⟨some entPrevC9⟩ (.ok (.overloaded twoMemberC8))).1.reference = none
    ∧ resolveNameDesignator ⟨some entPrevC9⟩ (.ok (.single entNewC9)) =
        (⟨some entNewC9⟩, some (.single entNewC9), []) :=
  ⟨(resolve_designator_reference_rules ⟨some entPrevC9⟩ ⟨none⟩
      (.ok (.overloaded twoMemberC8))).2.2.2.1 twoMemberC8 rfl (by decide),
    (resolve_designator_reference_rules ⟨some entPrevC9⟩ ⟨none⟩
      (.ok (.single entNewC9))).2.1 entNewC9 rfl⟩

/-- Whether every choice of the association is positional or a discrete
range (the `can_be_array` condition: named choices that are expressions
or `others` rule the array reading out). -/
def onlyRangeChoices : ElementAssociation → Bool
  | .positional _ => true
  | .named choices _ =>
    choices.all (fun c =>
      match c with
      | .discreteRange _ => true
      | _ => false)

theorem choiceFold_canBeArray (oracles : AnalysisOracles) (it : Option TypeEnt)
    (choices : List Choice) (st : ChoiceLoopState) :
    (choices.foldl (choiceStep oracles it) st).canBeArray =
      (st.canBeArray && choices.all (fun c =>
        match c with
        | Choice.discreteRange _ => true
        | _ => false)) := by
  induction choices generalizing st with
  | nil => simp
  | cons c rest ih =>
    cases c with
    | expression e =>
      cases it with
      | some t => simp [choiceStep, ih]
      | none => simp [choiceStep, ih]
    | discreteRange dr =>
      cases it with
      | some t => simp [choiceStep, ih]
      | none => simp [choiceStep, ih]
    | others => simp [choiceStep, ih]

theorem choicePhase_canBeArray (oracles : AnalysisOracles) (it : Option TypeEnt)
    (assoc : ElementAssociation) (h : onlyRangeChoices assoc = true) :
    (choicePhase oracles it assoc).canBeArray = true := by
  cases assoc with
  | positional e => rfl
  | named choices e =>
    unfold choicePhase
    rw [choiceFold_canBeArray]
    simp only [onlyRangeChoices] at h
    simp [h]

/-- C7: for an element association whose choices are only positional or
discrete ranges, the expression is analyzed against the element type
first; that result and its diagnostics are kept exactly when the check
yields `Ok`; otherwise the expression is re-analyzed against the whole
array type, kept when that yields `Ok`; if neither yields `Ok`, the
element-type result and diagnostics are reported. -/
theorem analyze_1d_array_elem_selection (oracles : AnalysisOracles)
    (arrayType elemType : TypeEnt) (indexType : Option TypeEnt)
    (assoc : ElementAssociation) (h : onlyRangeChoices assoc = true) :
    (choicePhase oracles indexType assoc).canBeArray = true
    ∧ ((oracles.analyzeExprWithTargetType elemType assoc.expr).1 = TypeCheck.ok →
      analyze1dArrayAssocElem oracles arrayType indexType elemType assoc =
        ((choicePhase oracles indexType assoc).check.combine
            (oracles.analyzeExprWithTargetType elemType assoc.expr).1,
          (choicePhase oracles indexType assoc).diags ++
            (oracles.analyzeExprWithTargetType elemType assoc.expr).2))
    ∧ ((oracles.analyzeExprWithTargetType elemType assoc.expr).1 ≠ TypeCheck.ok →
      (oracles.analyzeExprWithTargetType arrayType assoc.expr).1 = TypeCheck.ok →
      analyze1dArrayAssocElem oracles arrayType indexType elemType assoc =
        ((choicePhase oracles indexType assoc).check.combine
            (oracles.analyzeExprWithTargetType arrayType assoc.expr).1,
          (choicePhase oracles indexType assoc).diags ++
            (oracles.analyzeExprWithTargetType arrayType assoc.expr).2))
    ∧ ((oracles.analyzeExprWithTargetType elemType assoc.expr).1 ≠ TypeCheck.ok →
      (oracles.analyzeExprWithTargetType arrayType assoc.expr).1 ≠ TypeCheck.ok →
      analyze1dArrayAssocElem oracles arrayType indexType elemType assoc =
        ((choicePhase oracles indexType assoc).check.combine
            (oracles.analyzeExprWithTargetType elemType assoc.expr).1,
          (choicePhase oracles indexType assoc).diags ++
            (oracles.analyzeExprWithTargetType elemType assoc.expr).2)) := by
  have hcba := choicePhase_canBeArray oracles indexType assoc h
  refine ⟨hcba, ?_, ?_, ?_⟩
  · intro helem
    simp [analyze1dArrayAssocElem, hcba, helem]
  · intro helem harr
    simp [analyze1dArrayAssocElem, hcba, helem, harr]
  · intro helem harr
    simp [analyze1dArrayAssocElem, hcba, helem, harr]

/-- Oracles for the C7 witness: element type 1 fails to type, any other
target succeeds, each check pushing one marker diagnostic at the target
type's id. -/
def oraclesC7 : AnalysisOracles :=
  { analyzeExprWithTargetType := fun t _ =>
      (if t.typeId = 1 then TypeCheck.notOk else TypeCheck.ok,
        [Diagnostic.error ⟨t.typeId⟩ (Msg.noDeclaration (.identifier "v"))]),
    analyzeDRangeWithTargetType := fun _ _ => (TypeCheck.ok, []),
    analyzeDRange := fun _ => [] }

/-- Witness for the selection rules: with element typing failing and
array typing succeeding, the array-type branch's result and diagnostics
are kept. -/
theorem analyze_1d_array_elem_selection_witness :
    analyze1dArrayAssocElem oraclesC7 ⟨2⟩ none ⟨1⟩ (ElementAssociation.positional ⟨0⟩) =
      ((choicePhase oraclesC7 none (ElementAssociation.positional ⟨0⟩)).check.combine
          (oraclesC7.analyzeExprWithTargetType ⟨2⟩ (ElementAssociation.positional ⟨0⟩).expr).1,
        (choicePhase oraclesC7 none (ElementAssociation.positional ⟨0⟩)).diags ++
          (oraclesC7.analyzeExprWithTargetType ⟨2⟩ (ElementAssociation.positional ⟨0⟩).expr).2) :=
  (analyze_1d_array_elem_selection oraclesC7 ⟨2⟩ ⟨1⟩ none
      (ElementAssociation.positional ⟨0⟩) rfl).2.2.1 (by decide) (by decide)

/-- The merge `lookup_enclosing` performs on an immediate overload set:
a parent overload set is merged left-biased, any other parent outcome
(nothing, or a `Single`) leaves the immediate set alone. -/
def mergeEnclosingParent (o : OverloadedName) (parentResult : Option NamedEntities) :
    OverloadedName :=
  match parentResult with
  | some (.overloaded p) => o.withVisible p
  | _ => o

/-- The merge `lookup_uncached` performs on an enclosing overload set:
a visible overload set is merged left-biased, any other visibility
outcome (nothing, a single, or an ambiguity error) leaves the enclosing
set alone. -/
def mergeVisibleResult (o : OverloadedName)
    (visResult : Except Diagnostic (Option NamedEntities)) : OverloadedName :=
  match visResult with
  | .ok (some (.overloaded v)) => o.withVisible v
  | _ => o

/-- C1: if the immediate region maps the designator to a `Single`
entity, the uncached lookup returns exactly that entity for every parent
chain and every visibility content; if the immediate region maps it to
an overload set, the result is that overload set merged left-biased with
the parent enclosing overloads (none when a parent resolves to a
`Single`) and with the visible overloads — in particular it is always an
overload set. `Scope::lookup` agrees with the uncached lookup whenever
the cache has no entry for the designator. -/
theorem scope_lookup_immediate_shadowing (r : Region) (parents : List Region)
    (pos : SrcPos) (d : Designator) :
    (∀ e, r.lookupImmediate d = some (.single e) →
      lookupUncached (r :: parents) pos d = .ok (.single e))
    ∧ (∀ o, r.lookupImmediate d = some (.overloaded o) →
      lookupUncached (r :: parents) pos d =
        .ok (.overloaded (mergeVisibleResult
          (mergeEnclosingParent o (lookupEnclosing parents d))
          (lookupVisible (r :: parents) pos d))))
    ∧ (∀ s : Scope, alookup s.cache d = none →
      (s.lookup pos d).1 = lookupUncached s.chain pos d) := by
  refine ⟨?_, ?_, ?_⟩
  · intro e h
    simp [lookupUncached, lookupEnclosing, h]
  · intro o h
    simp only [lookupUncached, lookupEnclosing, h]
    cases hp : lookupEnclosing parents d with
    | none =>
      cases hv : lookupVisible (r :: parents) pos d with
      | ok ov =>
        cases ov with
        | none => simp [mergeEnclosingParent, mergeVisibleResult, hv]
        | some ne =>
          cases ne with
          | single e2 => simp [mergeEnclosingParent, mergeVisibleResult, hv]
          | overloaded v => simp [mergeEnclosingParent, mergeVisibleResult, hv]
      | error dg => simp [mergeEnclosingParent, mergeVisibleResult, hv]
    | some ne =>
      cases ne with
      | single e2 =>
        cases hv : lookupVisible (r :: parents) pos d with
        | ok ov =>
          cases ov with
          | none => simp [mergeEnclosingParent, mergeVisibleResult, hv]
          | some ne2 =>
            cases ne2 with
            | single e3 => simp [mergeEnclosingParent, mergeVisibleResult, hv]
            | overloaded v => simp [mergeEnclosingParent, mergeVisibleResult, hv]
        | error dg => simp [mergeEnclosingParent, mergeVisibleResult, hv]
      | overloaded p =>
        cases hv : lookupVisible (r :: parents) pos d with
        | ok ov =>
          cases ov with
          | none => simp [mergeEnclosingParent, mergeVisibleResult, hv]
          | some ne2 =>
            cases ne2 with
            | single e3 => simp [mergeEnclosingParent, mergeVisibleResult, hv]
            | overloaded v => simp [mergeEnclosingParent, mergeVisibleResult, hv]
        | error dg => simp [mergeEnclosingParent, mergeVisibleResult, hv]
  · intro s hc
    cases hu : lookupUncached s.chain pos d with
    | ok ents => simp [Scope.lookup, hc, hu]
    | error dg => simp [Scope.lookup, hc, hu]

/-- An overloadable entity visible for the C1 witness region. -/
def immOvC1 : OverloadedEnt :=
  { id := 11, designator := .identifier "g", declPos := some ⟨4⟩,
    payload := { okind := .subprogram, implicit := false, sigKey := 3, actualId := 11 } }

/-- An immediate region mapping `g` to an overload set and `x` to a
`Single`. -/
def regionC1 : Region :=
  { visibility := [],
    entities := [(.identifier "x", .single entPrevC9),
                 (.identifier "g", .overloaded ⟨[(3, immOvC1)]⟩)],
    kind := .other }

/-- A parent region mapping both `x` and `g` to `Single` entities. -/
def parentC1 : Region :=
  { visibility := [],
    entities := [(.identifier "x", .single entNewC9),
                 (.identifier "g", .single entNewC9)],
    kind := .other }

/-- Witness for the lookup rules: an immediate `Single` shadows the
parent, and an immediate overload set stays an overload set even though
the parent maps the designator to a `Single`. -/
theorem scope_lookup_immediate_shadowing_witness :
    lookupUncached [regionC1, parentC1] ⟨0⟩ (.identifier "x") = .ok (.single entPrevC9)
    ∧ lookupUncached [regionC1, parentC1] ⟨0⟩ (.identifier "g") =
        .ok (.overloaded (mergeVisibleResult
          (mergeEnclosingParent ⟨[(3, immOvC1)]⟩ (lookupEnclosing [parentC1] (.identifier "g")))
          (lookupVisible [regionC1, parentC1] ⟨0⟩ (.identifier "g")))) :=
  ⟨(scope_lookup_immediate_shadowing regionC1 [parentC1] ⟨0⟩ (.identifier "x")).1
      entPrevC9 (by decide),
    (scope_lookup_immediate_shadowing regionC1 [parentC1] ⟨0⟩ (.identifier "g")).2.1
      ⟨[(3, immOvC1)]⟩ (by decide)⟩

/-- A non-overloadable entity visible under `x` (its own designator). -/
def entAC3 : AnyEnt :=
  { id := 21, designator := .identifier "x", declPos := some ⟨10⟩, kind := .other }

/-- A non-overloadable entity whose own designator is `y`; it is made
potentially visible under the alias name `x`. -/
def entBC3 : AnyEnt :=
  { id := 22, designator := .identifier "y", declPos := some ⟨20⟩, kind := .other }

/-- The initial scope: empty entity map, `entAC3` visible under `x`,
empty cache. -/
def scope0C3 : Scope :=
  { region := { visibility := [(.identifier "x", entAC3)], entities := [], kind := .other },
    parents := [], cache := [] }

/-- The scope after a first lookup of `x` (which caches `entAC3`). -/
def scope1C3 : Scope := (scope0C3.lookup ⟨100⟩ (.identifier "x")).2

/-- The scope after making `entBC3` potentially visible under the name
`x`: the source removes the cache entry for `entBC3.designator()` (`y`)
instead of the entry for `x`. -/
def scope2C3 : Scope :=
  scope1C3.makePotentiallyVisibleWithName (some ⟨30⟩) (.identifier "x") entBC3

/-- C3 failing input, evaluated: the first lookup of `x` resolves to
`entAC3` and caches it; making `entBC3` visible under `x` leaves that
cache entry in place (only the entry for `y` is removed), so a
subsequent lookup of `x` still returns the stale `entAC3` while the
uncached lookup now reports an ambiguity between the two candidates. -/
theorem make_potentially_visible_with_name_stale_cache :
    (scope0C3.lookup ⟨100⟩ (.identifier "x")).1 = .ok (.single entAC3)
    ∧ alookup scope2C3.cache (.identifier "x") = some (.single entAC3)
    ∧ (scope2C3.lookup ⟨100⟩ (.identifier "x")).1 = .ok (.single entAC3)
    ∧ lookupUncached scope2C3.chain ⟨100⟩ (.identifier "x") =
        .error (((Diagnostic.error ⟨100⟩ (Msg.ambiguousName (.identifier "x"))).addRelated
            ⟨10⟩ Msg.previouslyDefinedHere).addRelated ⟨20⟩ Msg.previouslyDefinedHere) := by
  refine ⟨rfl, by decide, rfl, rfl⟩

end VhdlRegion
